import Mathlib

/- Verification of the RAG LLM Assistant core (Python sources under src/)
   against its natural-language specification. The Python code is embedded
   shallowly: pure fragments become Lean functions, the mutable fields of the
   RAGSystem instance become an explicit state record, raised exceptions
   become Except values, and external collaborators (the Pinecone index, the
   Gemini model, HTTP fetches) become function parameters. -/

set_option maxHeartbeats 1000000
set_option maxRecDepth 8000

namespace RAGAssistant

/- ------------------------------------------------------------------ -/
/- Chunker (spec sections 3, 4.2, 8.1)                                 -/
/- ------------------------------------------------------------------ -/

/-- Modelled from the spec: the chunker used by the repository is the
langchain RecursiveCharacterTextSplitter, an external dependency whose code
is not under src/ (rag_system.py lines 45-49 only configure it with
chunk_size and chunk_overlap). Spec sections 3 and 8.1 describe the chunks as
contiguous segments of at most chunk_size characters where consecutive
segments from the same document share chunk_overlap characters except at
document boundaries. Those words describe a character window advancing by
stride = chunk_size - chunk_overlap: chunk k starts at position k * stride,
and a chunk starts at every such position before the end of the text. -/
def chunk_starts (stride n : Nat) : List Nat :=
  (List.range ((n + stride - 1) / stride)).map (fun k => k * stride)

/-- Modelled from the spec: the chunk beginning at position i of the text. -/
def chunk_at (chunk_size : Nat) (text : List Char) (i : Nat) : List Char :=
  (text.drop i).take chunk_size

/-- Modelled from the spec: split one document into overlapping chunks. -/
def split_text (chunk_size chunk_overlap : Nat) (text : List Char) :
    List (List Char) :=
  (chunk_starts (chunk_size - chunk_overlap) text.length).map
    (chunk_at chunk_size text)

/-- The chunk with index k, as a function of the index. -/
def nth_chunk (chunk_size chunk_overlap : Nat) (text : List Char) (k : Nat) :
    List Char :=
  chunk_at chunk_size text (k * (chunk_size - chunk_overlap))

/- ------------------------------------------------------------------ -/
/- Source catalog (rag_system.py, add_documents_to_vectorstore)        -/
/- ------------------------------------------------------------------ -/

/-- One entry of RAGSystem.sources: the source_info dict built in
add_documents_to_vectorstore (rag_system.py lines 311-316) from
doc.metadata.get("source", "Unknown"), doc.metadata.get("type", "Unknown")
and datetime.now().isoformat(). -/
structure SourceRecord where
  source : String
  type : String
  added_at : String
deriving DecidableEq, Repr

/-- The source bookkeeping loop of add_documents_to_vectorstore
(rag_system.py lines 310-318): for each document its source_info record is
appended unless an equal record (all three fields equal, added_at included,
since the membership test compares the whole dict) is already present. -/
def update_sources (sources : List SourceRecord) (infos : List SourceRecord) :
    List SourceRecord :=
  infos.foldl (fun acc info => if info ∈ acc then acc else acc ++ [info]) sources

/- ------------------------------------------------------------------ -/
/- Retrieved documents and the chat-tab source list (chat_tab.py)      -/
/- ------------------------------------------------------------------ -/

/-- A retrieved chunk as seen by ChatTab._handle_chat_input: only the source
metadata field (doc.metadata.get("source", "Unknown")) feeds the source
list. -/
structure RetrievedDoc where
  source : String
  content : String
deriving DecidableEq, Repr

/-- The chunk-level source identifiers in retrieval order (chat_tab.py line
298). -/
def chunk_source_ids (docs : List RetrievedDoc) : List String :=
  docs.map (fun d => d.source)

/-- Models the Python expression list(set(xs)) of chat_tab.py lines 298-299:
the list enumerates each distinct element of xs exactly once, in an order
determined by string hashing (and hash randomization makes every enumeration
of the set a possible run-time outcome). So ys is a possible value of
list(set(xs)) iff ys is duplicate-free and has exactly the members of xs. -/
def is_py_set_list (xs ys : List String) : Prop :=
  ys.Nodup ∧ ∀ a, a ∈ ys ↔ a ∈ xs

/-- First-occurrence-order deduplication: what the spec words
(order-preserving, first-occurrence order) describe. -/
def first_occurrence_dedup (xs : List String) : List String :=
  xs.foldl (fun acc x => if x ∈ acc then acc else acc ++ [x]) []

/- ------------------------------------------------------------------ -/
/- RAGSystem state and query pipeline (rag_system.py, llm.py)          -/
/- ------------------------------------------------------------------ -/

/-- The dict produced by qa_chain.invoke: result["result"] and
result["source_documents"] (rag_system.py lines 339-344). -/
structure QAResult where
  result : String
  source_documents : List RetrievedDoc
deriving DecidableEq, Repr

/-- The dict returned by RAGSystem.query (rag_system.py lines 334-347):
either an error dict or an answer dict. -/
inductive QueryResult where
  | error (msg : String)
  | success (answer : String) (source_documents : List RetrievedDoc)
deriving DecidableEq, Repr

/-- The mutable fields of a RAGSystem instance set in __init__ (rag_system.py
lines 56-60), plus the st.session_state temp namespace registry maintained by
_register_temp_session_cleanup. vectorstore records the namespace the
PineconeVectorStore is bound to; qa_chain is the bound RetrievalQA chain. -/
structure RAGState where
  vectorstore : Option String
  qa_chain : Option Unit
  sources : List SourceRecord
  current_namespace : Option String
  session_id : Option String
  temp_namespaces : List String
deriving DecidableEq, Repr

/-- The state right after RAGSystem.__init__. -/
def initState : RAGState :=
  { vectorstore := none, qa_chain := none, sources := [],
    current_namespace := none, session_id := none, temp_namespaces := [] }

/-- RAGSystem.query (rag_system.py lines 325-347). The bound QA chain
invocation is a parameter returning Except: Except.error models an exception
raised during retrieval or generation, caught by the try/except and turned
into the error dict. query writes no field of the instance, so the state
comes back unchanged alongside the result dict. -/
def query (s : RAGState) (invoke : String → Except String QAResult)
    (question : String) : QueryResult × RAGState :=
  match s.qa_chain with
  | none => (QueryResult.error "System not initialized", s)
  | some _ =>
    match invoke question with
    | Except.error e => (QueryResult.error ("Query error: " ++ e), s)
    | Except.ok r => (QueryResult.success r.result r.source_documents, s)

/-- GeminiLLM._call (llm.py lines 29-52): invokes the underlying model and
catches every exception, returning the text "Error generating response: e"
as the generated answer instead of re-raising. -/
def gemini_call (inner : String → Except String String) (prompt : String) :
    String :=
  match inner prompt with
  | Except.ok response => response
  | Except.error e => "Error generating response: " ++ e

/-- The RetrievalQA chain bound in _setup_pinecone_vectorstore (rag_system.py
lines 245-252): retrieve the top-k chunks for the question, assemble the
stuffed prompt, call the LLM through GeminiLLM._call, and return answer plus
sources. A retrieval failure raises out of the chain; a generation failure
cannot raise because gemini_call swallows it. -/
def qa_chain_invoke (retrieve : String → Except String (List RetrievedDoc))
    (assemble : List RetrievedDoc → String → String)
    (inner : String → Except String String) (question : String) :
    Except String QAResult :=
  match retrieve question with
  | Except.error e => Except.error e
  | Except.ok docs =>
    Except.ok { result := gemini_call inner (assemble docs question),
                source_documents := docs }

/-- RAGSystem.setup_vectorstore (rag_system.py lines 159-188) composed with
_setup_pinecone_vectorstore (lines 190-258). Mode "temporary" derives a
temp_session namespace from the session id (created from fresh_id, modelling
str(uuid.uuid4())[:8], when the current id is falsy) and registers it in the
temp namespace list; every other mode uses "persistent". current_namespace is
assigned before the Pinecone store is bound. pinecone_ok models the Pinecone
calls up to and including binding the vector store; chain_ok models building
the RetrievalQA chain; on either failure the exception is caught and False is
returned with the remaining assignments skipped. -/
def setup_vectorstore (s : RAGState) (storage_mode fresh_id : String)
    (pinecone_ok chain_ok : Bool) : RAGState × Bool :=
  let s1 :=
    if storage_mode = "temporary" then
      let sid :=
        match s.session_id with
        | none => fresh_id
        | some id => if id = "" then fresh_id else id
      let ns := "temp_session_" ++ sid
      { s with session_id := some sid,
               temp_namespaces :=
                 if ns ∈ s.temp_namespaces then s.temp_namespaces
                 else s.temp_namespaces ++ [ns],
               current_namespace := some ns }
    else { s with current_namespace := some "persistent" }
  if pinecone_ok then
    if chain_ok then
      ({ s1 with vectorstore := s1.current_namespace, qa_chain := some () }, true)
    else ({ s1 with vectorstore := s1.current_namespace }, false)
  else (s1, false)

/-- Which delete call the body of RAGSystem.clear_database reaches inside the
`if self.vectorstore and PINECONE_AVAILABLE` guard (rag_system.py lines
356-381): the temporary branch, the permanent branch, the current-namespace
branch, the fallback that deletes ALL data of the index across every
namespace, or no delete at all because the guard was false. -/
inductive ClearBranch where
  | temporary
  | permanent
  | current_ns
  | fallback_all
  | no_delete
deriving DecidableEq, Repr

/-- The elif chain of RAGSystem.clear_database (rag_system.py lines 356-381)
selecting which delete runs: guarded by the truthiness of self.vectorstore
(and PINECONE_AVAILABLE), then storage_mode "temporary" / "permanent" / the
truthiness of self.current_namespace (None or the empty string fails that
test and falls through to the delete-everything fallback). -/
def clear_branch (s : RAGState) (storage_mode : Option String) : ClearBranch :=
  if s.vectorstore.isSome then
    if storage_mode = some "temporary" then ClearBranch.temporary
    else if storage_mode = some "permanent" then ClearBranch.permanent
    else
      match s.current_namespace with
      | some ns => if ns = "" then ClearBranch.fallback_all else ClearBranch.current_ns
      | none => ClearBranch.fallback_all
  else ClearBranch.no_delete

/-- Whether the selected branch issues at least one index.delete call (the
temporary branch loops over the registry, so an empty registry issues
none). -/
def clear_attempts_delete (s : RAGState) (b : ClearBranch) : Bool :=
  match b with
  | ClearBranch.no_delete => false
  | ClearBranch.temporary => !s.temp_namespaces.isEmpty
  | _ => true

/-- The Python truthiness test on self.current_namespace combined with its
startswith check, from the reset condition (rag_system.py line 384). -/
def current_ns_is_temp (s : RAGState) : Bool :=
  match s.current_namespace with
  | some ns => (ns != "") && ns.startsWith "temp_session_"
  | none => false

/-- RAGSystem.clear_database (rag_system.py lines 349-391). delete_fails
models a Pinecone delete call raising; the exception jumps to the handler,
skipping the reset block, and the state comes back as it was (nothing is
mutated before the raise). Otherwise the reset block (lines 383-388) runs
unless storage_mode is "temporary" while the current namespace is not a
temp_session namespace; the temporary branch also empties the registry
(line 365) before the reset block. -/
def clear_database (s : RAGState) (storage_mode : Option String)
    (delete_fails : Bool) : RAGState × ClearBranch :=
  if delete_fails && clear_attempts_delete s (clear_branch s storage_mode) then
    (s, clear_branch s storage_mode)
  else if storage_mode ≠ some "temporary" ∨ current_ns_is_temp s then
    ({ (if clear_branch s storage_mode = ClearBranch.temporary then
          { s with temp_namespaces := [] } else s) with
       vectorstore := none, qa_chain := none, sources := [],
       current_namespace := none }, clear_branch s storage_mode)
  else
    ((if clear_branch s storage_mode = ClearBranch.temporary then
        { s with temp_namespaces := [] } else s), clear_branch s storage_mode)

/-- RAGSystem.add_documents_to_vectorstore (rag_system.py lines 286-323).
infos are the per-document source_info records (each carrying the
datetime.now() string observed for that document). With no documents or no
vectorstore the method returns early; if the vectorstore upsert raises
(upsert_ok false) the exception skips the source bookkeeping; otherwise the
deduplicated source list is extended by update_sources. -/
def add_documents_to_vectorstore (s : RAGState) (infos : List SourceRecord)
    (upsert_ok : Bool) : RAGState :=
  if infos.isEmpty then s
  else if s.vectorstore.isNone then s
  else if upsert_ok then { s with sources := update_sources s.sources infos }
  else s

/-- States reachable through the lifecycle of one RAGSystem instance,
starting from __init__. query writes no field (see query above), so it
induces no separate step. -/
inductive Reachable : RAGState → Prop where
  | init : Reachable initState
  | setup (s : RAGState) (mode fid : String) (pok cok : Bool) :
      Reachable s → Reachable (setup_vectorstore s mode fid pok cok).1
  | clear (s : RAGState) (mode : Option String) (df : Bool) :
      Reachable s → Reachable (clear_database s mode df).1
  | add (s : RAGState) (infos : List SourceRecord) (ok : Bool) :
      Reachable s → Reachable (add_documents_to_vectorstore s infos ok)

/-- The C10 invariant: whenever a vector store is bound, a non-empty current
namespace is set. -/
def NamespaceInv (s : RAGState) : Prop :=
  s.vectorstore.isSome → ∃ ns, s.current_namespace = some ns ∧ ns ≠ ""

/- ------------------------------------------------------------------ -/
/- Web scraper (document_processor.py)                                 -/
/- ------------------------------------------------------------------ -/

/-- A fetched and cleaned page: its title, its cleaned text content
(script/style/nav/footer/header removed, whitespace collapsed — the value of
the variable content at document_processor.py line 75), and the href values
of its anchor tags. -/
structure Page where
  title : String
  content : String
  links : List String

/-- A scraped langchain Document: page_content plus the metadata fields used
downstream (document_processor.py lines 78-86). -/
structure ScrapedDoc where
  source : String
  title : String
  content : String
deriving DecidableEq, Repr

/-- WebScraper._find_additional_links (document_processor.py lines 121-134):
take at most 5 hrefs, resolve each against the current url with urljoin, and
append those whose network location equals the base url one and which are in
neither visited_urls nor urls_to_visit (the same list being appended to). -/
def find_additional_links (urljoin : String → String → String)
    (netloc : String → String) (links : List String)
    (current_url base_url : String) (visited : List String)
    (to_visit : List String) : List String :=
  (links.take 5).foldl
    (fun acc href =>
      let full_url := urljoin current_url href
      if netloc full_url = netloc base_url ∧ full_url ∉ visited ∧ full_url ∉ acc
      then acc ++ [full_url] else acc)
    to_visit

/-- The loop state of WebScraper.scrape_website: the documents gathered so
far, the visited url set, and the urls_to_visit list. -/
structure ScrapeState where
  documents : List ScrapedDoc
  visited : List String
  to_visit : List String

/-- One iteration of the scrape loop body (document_processor.py lines
44-98) at snapshot index i. fetch returns none when the request raises (the
exception is caught and the url skipped). A page contributes a document only
when its cleaned content is longer than 100 characters, in which case the url
is marked visited and, when i < max_pages - 1, its links are gathered. -/
def scrape_step (fetch : String → Option Page)
    (urljoin : String → String → String) (netloc : String → String)
    (base_url : String) (max_pages : Nat) (st : ScrapeState) (i : Nat)
    (current_url : String) : ScrapeState :=
  if current_url ∈ st.visited then st
  else
    match fetch current_url with
    | none => st
    | some page =>
      if page.content.length > 100 then
        let documents := st.documents ++
          [{ source := current_url, title := page.title, content := page.content }]
        let visited := st.visited ++ [current_url]
        let to_visit :=
          if i < max_pages - 1 then
            find_additional_links urljoin netloc page.links current_url base_url
              visited st.to_visit
          else st.to_visit
        { documents := documents, visited := visited, to_visit := to_visit }
      else st

/-- The for loop of scrape_website, iterating over the SNAPSHOT list with its
enumerate index. Appends made to the to_visit field of the state never extend
the iteration, exactly as in Python where the loop runs over the copy made by
the slice urls_to_visit[:max_pages]. -/
def scrape_loop (fetch : String → Option Page)
    (urljoin : String → String → String) (netloc : String → String)
    (base_url : String) (max_pages : Nat) :
    Nat → List String → ScrapeState → ScrapeState
  | _, [], st => st
  | i, u :: rest, st =>
    scrape_loop fetch urljoin netloc base_url max_pages (i + 1) rest
      (scrape_step fetch urljoin netloc base_url max_pages st i u)

/-- WebScraper.scrape_website (document_processor.py lines 24-100). The for
statement evaluates enumerate(urls_to_visit[:max_pages]) once: the slice is
a copy of urls_to_visit taken while it still equals [url], so the iteration
is over that snapshot. -/
def scrape_website (fetch : String → Option Page)
    (urljoin : String → String → String) (netloc : String → String)
    (url : String) (max_pages : Nat) : List ScrapedDoc :=
  let to_visit := [url]
  let snapshot := to_visit.take max_pages
  (scrape_loop fetch urljoin netloc url max_pages 0 snapshot
    { documents := [], visited := [], to_visit := to_visit }).documents

/-- A concrete site for evaluating the scraper: the start page has
substantial content (120 characters) and links to 5 distinct pages, each of
which also has substantial content. All urls share the host site.example. -/
def demo_fetch : String → Option Page := fun u =>
  if u = "http://site.example/" then
    some { title := "Start", content := String.mk (List.replicate 120 's'),
           links := ["/a", "/b", "/c", "/d", "/e"] }
  else if u ∈ ["http://site.example/a", "http://site.example/b",
               "http://site.example/c", "http://site.example/d",
               "http://site.example/e"] then
    some { title := "Child", content := String.mk (List.replicate 120 'c'),
           links := [] }
  else none

/-- urljoin for the demo site: hrefs are root-relative paths. -/
def demo_urljoin : String → String → String := fun _ href =>
  "http://site.example" ++ href

/-- netloc for the demo site: every url above is on host site.example. -/
def demo_netloc : String → String := fun _ => "site.example"

/- ------------------------------------------------------------------ -/
/- Chat history window (chat_tab.py)                                   -/
/- ------------------------------------------------------------------ -/

/-- A st.session_state.messages entry (the fields every entry carries). -/
structure ChatMessage where
  role : String
  content : String
  timestamp : String
deriving DecidableEq, Repr

/-- Python list slicing xs[-k:]: the last k elements when k > 0, but the
WHOLE list when k = 0, because -0 is 0 and xs[0:] is xs. -/
def py_slice_last (k : Nat) (xs : List α) : List α :=
  if k = 0 then xs else xs.drop (xs.length - k)

/-- The message window of ChatTab._build_conversation_context (chat_tab.py
lines 215-228): with history disabled the context is empty, otherwise
recent_messages = messages[-MAX_CHAT_HISTORY_CONTEXT*2:]. Only which messages
enter the context string matters here; the rendering around them (the header
line, the 200-character truncation of assistant content, the feedback
insights block) does not change which messages are included. -/
def conversation_window (history_enabled : Bool) (max_ctx : Nat)
    (msgs : List ChatMessage) : List ChatMessage :=
  if history_enabled then py_slice_last (max_ctx * 2) msgs else []

/-- The ordering inside ChatTab._handle_chat_input (chat_tab.py lines
264-281): the context window is computed from the messages as they are
BEFORE the new user turn is appended (line 271 precedes line 277). Returns
the window together with the message list after the append. -/
def handle_chat_turn (history_enabled : Bool) (max_ctx : Nat)
    (msgs : List ChatMessage) (prompt : ChatMessage) :
    List ChatMessage × List ChatMessage :=
  (conversation_window history_enabled max_ctx msgs, msgs ++ [prompt])

/-- Flatten complete (user turn, assistant turn) pairs into the message
list, in order. -/
def turns_messages : List (ChatMessage × ChatMessage) → List ChatMessage
  | [] => []
  | t :: ts => t.1 :: t.2 :: turns_messages ts

/- ------------------------------------------------------------------ -/
/- Feedback store and answer post-processing (chat_tab.py)             -/
/- ------------------------------------------------------------------ -/

/-- A st.session_state.feedback_data value. Dict keys absent from the Python
dict are modelled as none (dict.get returns None for them). -/
structure FeedbackRec where
  rating : Option String
  detailed_feedback : Option String
  timestamp : String
  message_index : Nat
deriving DecidableEq, Repr

/-- The feedback dict: insertion-ordered key/value pairs, keyed by the
message id string. -/
abbrev FeedbackMap := List (String × FeedbackRec)

/-- Python dict assignment d[k] = v: overwrite in place when the key exists,
otherwise append a new entry at the end. -/
def dict_set (d : FeedbackMap) (k : String) (v : FeedbackRec) : FeedbackMap :=
  if k ∈ d.map Prod.fst then
    d.map (fun p => if p.1 = k then (p.1, v) else p)
  else d ++ [(k, v)]

/-- ChatTab._store_feedback (chat_tab.py lines 161-173): assigns a FRESH dict
holding only rating, timestamp and message_index under the key
msg_<message_index>; any detailed_feedback previously stored for that message
is gone after this assignment. -/
def store_feedback (d : FeedbackMap) (message_index : Nat) (rating : String)
    (now : String) : FeedbackMap :=
  dict_set d ("msg_" ++ toString message_index)
    { rating := some rating, detailed_feedback := none,
      timestamp := now, message_index := message_index }

/-- The save branch of ChatTab._render_feedback_form (chat_tab.py lines
190-199): when the key exists only the detailed_feedback field is updated in
place (the rating survives); otherwise a fresh record with no rating is
inserted. -/
def save_detailed_feedback (d : FeedbackMap) (message_index : Nat)
    (text : String) (now : String) : FeedbackMap :=
  let k := "msg_" ++ toString message_index
  if k ∈ d.map Prod.fst then
    d.map (fun p =>
      if p.1 = k then (p.1, { p.2 with detailed_feedback := some text }) else p)
  else d ++ [(k, { rating := none, detailed_feedback := some text,
                   timestamp := now, message_index := message_index })]

/-- The fixed disclosure suffix of ChatTab._post_process_answer
(chat_tab.py line 371). -/
def improvement_note : String :=
  "\n\n💡 *This response incorporates improvements based on your previous feedback.*"

/-- ChatTab._post_process_answer (chat_tab.py lines 353-374): with feedback
disabled or an empty feedback dict the answer passes through; otherwise, when
any stored feedback has rating "negative", the disclosure suffix is appended;
otherwise the answer passes through unchanged. -/
def post_process_answer (feedback_enabled : Bool) (d : FeedbackMap)
    (answer : String) : String :=
  if !feedback_enabled || d.isEmpty then answer
  else if (d.map Prod.snd).countP (fun f => f.rating == some "negative") > 0
  then answer ++ improvement_note
  else answer

/- ------------------------------------------------------------------ -/
/- Theorems                                                            -/
/- ------------------------------------------------------------------ -/

/-- C2: for every question, query never lets an exception past the
orchestrator boundary: it never mutates the orchestrator state; with no QA
chain bound it returns the "not initialized" error dict; and when the bound
chain raises during retrieval or generation, the exception is caught and
returned as the error dict, leaving the orchestrator usable for subsequent
queries. -/
theorem query_fail_soft (s : RAGState) (invoke : String → Except String QAResult)
    (question : String) :
    (query s invoke question).2 = s ∧
    (s.qa_chain = none →
      (query s invoke question).1 = QueryResult.error "System not initialized") ∧
    (∀ e, s.qa_chain ≠ none → invoke question = Except.error e →
      (query s invoke question).1 = QueryResult.error ("Query error: " ++ e)) := by
  refine ⟨?_, ?_, ?_⟩
  · unfold query
    cases s.qa_chain with
    | none => rfl
    | some u =>
      cases invoke question with
      | error e => rfl
      | ok r => rfl
  · intro h
    simp [query, h]
  · intro e hne hinv
    cases hq : s.qa_chain with
    | none => exact absurd hq hne
    | some u => simp [query, hq, hinv]

/-- Witness for C2 at concrete inputs: before setup the error dict comes back
and the state is untouched; with a chain bound whose invocation raises, the
exception text comes back in the error dict. -/
theorem query_fail_soft_witness :
    (query initState (fun _ => Except.error "boom") "q").1 =
      QueryResult.error "System not initialized" ∧
    (query initState (fun _ => Except.error "boom") "q").2 = initState ∧
    (query { initState with qa_chain := some () }
        (fun _ => Except.error "boom") "q").1 =
      QueryResult.error ("Query error: " ++ "boom") := by
  refine ⟨?_, ?_, ?_⟩
  · exact (query_fail_soft initState (fun _ => Except.error "boom") "q").2.1 rfl
  · exact (query_fail_soft initState (fun _ => Except.error "boom") "q").1
  · exact (query_fail_soft { initState with qa_chain := some () }
      (fun _ => Except.error "boom") "q").2.2 "boom" (by decide) rfl

/-- C3 counterexample: the chat tab builds sources with list(set(...)), whose
iteration order is hash-dependent, so it is NOT guaranteed to be
first-occurrence order. For the chunk list with sources [b.pdf, a.pdf] the
enumeration [a.pdf, b.pdf] is a possible outcome of list(set(...)) and it
differs from the first-occurrence order [b.pdf, a.pdf]. -/
theorem py_set_list_not_first_occurrence :
    is_py_set_list (chunk_source_ids
        [{ source := "b.pdf", content := "x" }, { source := "a.pdf", content := "y" }])
      ["a.pdf", "b.pdf"] ∧
    ["a.pdf", "b.pdf"] ≠ first_occurrence_dedup (chunk_source_ids
        [{ source := "b.pdf", content := "x" }, { source := "a.pdf", content := "y" }]) := by
  refine ⟨⟨by decide, ?_⟩, by decide⟩
  intro a
  simp [chunk_source_ids, List.mem_cons]
  tauto

/-- C3 amended: the document-level source list returned by the chat tab is
deduplicated — every source identifier of the retrieved chunk list appears in
it exactly once and nothing else appears — but its order is the set iteration
order, which is unspecified (not first-occurrence order). -/
theorem query_sources_deduplicated (docs : List RetrievedDoc) (ys : List String)
    (h : is_py_set_list (chunk_source_ids docs) ys) :
    (∀ a ∈ chunk_source_ids docs, ys.count a = 1) ∧
    (∀ a ∈ ys, a ∈ chunk_source_ids docs) := by
  obtain ⟨hnd, hmem⟩ := h
  refine ⟨fun a ha => ?_, fun a ha => (hmem a).mp ha⟩
  exact List.count_eq_one_of_mem hnd ((hmem a).mpr ha)

/-- Witness for C3 amended at a concrete chunk list and a concrete set
enumeration. -/
theorem query_sources_deduplicated_witness :
    (∀ a ∈ chunk_source_ids
        [{ source := "b.pdf", content := "x" }, { source := "a.pdf", content := "y" },
         { source := "b.pdf", content := "z" }],
      (["a.pdf", "b.pdf"] : List String).count a = 1) ∧
    (∀ a ∈ (["a.pdf", "b.pdf"] : List String),
      a ∈ chunk_source_ids
        [{ source := "b.pdf", content := "x" }, { source := "a.pdf", content := "y" },
         { source := "b.pdf", content := "z" }]) :=
  query_sources_deduplicated
    [{ source := "b.pdf", content := "x" }, { source := "a.pdf", content := "y" },
     { source := "b.pdf", content := "z" }]
    ["a.pdf", "b.pdf"]
    ⟨by decide, by intro a; simp [chunk_source_ids, List.mem_cons]; tauto⟩

/-- C4 counterexample: adding the same (source, type) document twice does NOT
leave the source list length unchanged, because the membership test compares
the whole record including added_at, and the second addition carries a fresh
timestamp. One record after the first addition, two after the second. -/
theorem update_sources_repeat_source_duplicates :
    (update_sources []
        [{ source := "a.pdf", type := "pdf", added_at := "2025-01-01T00:00:00" }]).length = 1 ∧
    (update_sources (update_sources []
        [{ source := "a.pdf", type := "pdf", added_at := "2025-01-01T00:00:00" }])
        [{ source := "a.pdf", type := "pdf", added_at := "2025-01-01T00:00:05" }]).length = 2 := by
  constructor
  · decide
  · decide

/-- C4 amended: the dedup key of the source catalog is the WHOLE record
(source, type, added_at): an addition whose record already occurs (all three
fields equal) leaves the list unchanged — insertion order preserved,
first write wins, the existing entry not updated — and repeating the same
addition with the same timestamp is idempotent; but an addition with a fresh
timestamp is appended even for an already catalogued (source, type). -/
theorem update_sources_full_record_dedup (sources : List SourceRecord)
    (info : SourceRecord) :
    (info ∈ sources → update_sources sources [info] = sources) ∧
    (info ∉ sources → update_sources sources [info] = sources ++ [info]) ∧
    update_sources (update_sources sources [info]) [info] =
      update_sources sources [info] := by
  have hone : ∀ (l : List SourceRecord),
      update_sources l [info] = if info ∈ l then l else l ++ [info] := by
    intro l
    simp [update_sources]
  refine ⟨fun h => ?_, fun h => ?_, ?_⟩
  · rw [hone, if_pos h]
  · rw [hone, if_neg h]
  · by_cases h : info ∈ sources <;> simp [hone, h]

/-- Witness for C4 amended at concrete records. -/
theorem update_sources_full_record_dedup_witness :
    update_sources []
        [{ source := "a.pdf", type := "pdf", added_at := "2025-01-01T00:00:00" }] =
      [] ++ [{ source := "a.pdf", type := "pdf", added_at := "2025-01-01T00:00:00" }] ∧
    update_sources (update_sources []
        [{ source := "a.pdf", type := "pdf", added_at := "2025-01-01T00:00:00" }])
        [{ source := "a.pdf", type := "pdf", added_at := "2025-01-01T00:00:00" }] =
      update_sources []
        [{ source := "a.pdf", type := "pdf", added_at := "2025-01-01T00:00:00" }] :=
  ⟨(update_sources_full_record_dedup []
      { source := "a.pdf", type := "pdf", added_at := "2025-01-01T00:00:00" }).2.1
      (by decide),
   (update_sources_full_record_dedup []
      { source := "a.pdf", type := "pdf", added_at := "2025-01-01T00:00:00" }).2.2⟩

/-- C8: with feedback enabled, an answer produced while at least one negative
feedback record exists is the generated answer with the fixed disclosure
suffix appended, and an answer produced while no negative feedback exists is
returned unchanged. -/
theorem post_process_disclosure (d : FeedbackMap) (answer : String) :
    ((∃ p ∈ d, p.2.rating = some "negative") →
      post_process_answer true d answer = answer ++ improvement_note) ∧
    ((∀ p ∈ d, p.2.rating ≠ some "negative") →
      post_process_answer true d answer = answer) := by
  constructor
  · rintro ⟨p, hp, hneg⟩
    unfold post_process_answer
    split_ifs with h1 h2
    · exfalso
      cases d with
      | nil => exact absurd hp (by simp)
      | cons q qs => simp at h1
    · rfl
    · exfalso
      apply h2
      rw [gt_iff_lt, List.countP_pos_iff]
      exact ⟨p.2, List.mem_map_of_mem _ hp, by simp [hneg]⟩
  · intro hall
    unfold post_process_answer
    split_ifs with h1 h2
    · rfl
    · exfalso
      rw [gt_iff_lt, List.countP_pos_iff] at h2
      obtain ⟨f, hf, hfneg⟩ := h2
      obtain ⟨q, hq, rfl⟩ := List.mem_map.mp hf
      exact hall q hq (by simpa using hfneg)
    · rfl

/-- Witness for C8 at a concrete feedback dict: one negative record makes the
suffix appear; a dict with only positive feedback leaves the answer alone. -/
theorem post_process_disclosure_witness :
    post_process_answer true
        [("msg_0", { rating := some "negative", detailed_feedback := none,
                     timestamp := "t", message_index := 0 })] "ans" =
      "ans" ++ improvement_note ∧
    post_process_answer true
        [("msg_0", { rating := some "positive", detailed_feedback := none,
                     timestamp := "t", message_index := 0 })] "ans" = "ans" :=
  ⟨(post_process_disclosure
      [("msg_0", { rating := some "negative", detailed_feedback := none,
                   timestamp := "t", message_index := 0 })] "ans").1
      ⟨("msg_0", { rating := some "negative", detailed_feedback := none,
                   timestamp := "t", message_index := 0 }), by decide, by decide⟩,
   (post_process_disclosure
      [("msg_0", { rating := some "positive", detailed_feedback := none,
                   timestamp := "t", message_index := 0 })] "ans").2
      (by decide)⟩

/-- C5: evaluating the scraper at the claim scenario — a start page with
substantial content linking to 5 distinct same-origin pages, each with
substantial content, and max_pages = 3. The code returns ONLY the start
page document: the for loop iterates over the slice copy
urls_to_visit[:max_pages] taken while the frontier holds just the start url,
so the 5 discovered links (second conjunct: they ARE appended to
urls_to_visit) are never fetched, and no traversal beyond the start page
happens, against the breadth-first crawl the claim and the crawl comments of
the code describe. -/
theorem scrape_website_only_start_page :
    scrape_website demo_fetch demo_urljoin demo_netloc "http://site.example/" 3 =
      [{ source := "http://site.example/", title := "Start",
         content := String.mk (List.replicate 120 's') }] ∧
    (scrape_loop demo_fetch demo_urljoin demo_netloc "http://site.example/" 3 0
        (["http://site.example/"].take 3)
        { documents := [], visited := [], to_visit := ["http://site.example/"] }).to_visit =
      ["http://site.example/", "http://site.example/a", "http://site.example/b",
       "http://site.example/c", "http://site.example/d", "http://site.example/e"] := by
  exact ⟨rfl, rfl⟩

/-- C6 counterexample: when the generative-model call fails, the failure text
comes back as the ANSWER of a success dict, not as the error field.
GeminiLLM._call catches the exception and returns the message as the
generated text, so the query result is the success dict whose answer is
"Error generating response: quota exceeded" and is not an error dict for any
message. -/
theorem generation_failure_returned_as_answer :
    (query { initState with qa_chain := some () }
        (qa_chain_invoke (fun _ => Except.ok [{ source := "doc.pdf", content := "ctx" }])
          (fun _ question => question) (fun _ => Except.error "quota exceeded")) "why").1 =
      QueryResult.success ("Error generating response: " ++ "quota exceeded")
        [{ source := "doc.pdf", content := "ctx" }] ∧
    (query { initState with qa_chain := some () }
        (qa_chain_invoke (fun _ => Except.ok [{ source := "doc.pdf", content := "ctx" }])
          (fun _ question => question) (fun _ => Except.error "quota exceeded")) "why").1 ≠
      QueryResult.error ("Query error: " ++ "quota exceeded") := by
  constructor
  · rfl
  · intro h
    simp [query, qa_chain_invoke, gemini_call] at h

/-- C6 amended: a generative-model failure during a query is swallowed by
GeminiLLM._call and reported as the answer TEXT "Error generating response:
..." of a success dict (no error field is produced for it), and the
orchestrator state is unchanged, so the session remains usable for
subsequent queries. -/
theorem query_generation_failure_fail_soft (s : RAGState)
    (retrieve : String → Except String (List RetrievedDoc))
    (assemble : List RetrievedDoc → String → String) (question e : String)
    (docs : List RetrievedDoc) (hready : s.qa_chain = some ())
    (hret : retrieve question = Except.ok docs) :
    (query s (qa_chain_invoke retrieve assemble (fun _ => Except.error e)) question).1 =
      QueryResult.success ("Error generating response: " ++ e) docs ∧
    (query s (qa_chain_invoke retrieve assemble (fun _ => Except.error e)) question).2 = s := by
  constructor <;> simp [query, qa_chain_invoke, gemini_call, hready, hret]

/-- Witness for C6 amended at concrete inputs. -/
theorem query_generation_failure_fail_soft_witness :
    (query { initState with qa_chain := some () }
        (qa_chain_invoke (fun _ => Except.ok ([] : List RetrievedDoc))
          (fun _ question => question) (fun _ => Except.error "boom")) "q").1 =
      QueryResult.success ("Error generating response: " ++ "boom") [] ∧
    (query { initState with qa_chain := some () }
        (qa_chain_invoke (fun _ => Except.ok ([] : List RetrievedDoc))
          (fun _ question => question) (fun _ => Except.error "boom")) "q").2 =
      { initState with qa_chain := some () } :=
  query_generation_failure_fail_soft { initState with qa_chain := some () }
    (fun _ => Except.ok ([] : List RetrievedDoc)) (fun _ question => question)
    "q" "boom" [] rfl rfl

/-- The flattened turn list has twice as many messages as there are turns. -/
theorem turns_messages_length (ts : List (ChatMessage × ChatMessage)) :
    (turns_messages ts).length = 2 * ts.length := by
  induction ts with
  | nil => rfl
  | cons t ts ih =>
    simp only [turns_messages, List.length_cons, ih]
    omega

/-- Dropping 2k messages from the flattened turns drops k whole turns. -/
theorem turns_messages_drop : ∀ (ts : List (ChatMessage × ChatMessage)) (k : Nat),
    (turns_messages ts).drop (2 * k) = turns_messages (ts.drop k)
  | _, 0 => by simp
  | [], _ + 1 => by simp [turns_messages]
  | t :: ts, k + 1 => by
    have h2 : 2 * (k + 1) = 2 * k + 1 + 1 := by omega
    simp only [turns_messages, h2, List.drop_succ_cons]
    exact turns_messages_drop ts k

/-- Counting over the flattened turns splits into a count over the first and
the second components of the turns. -/
theorem turns_messages_countP (p : ChatMessage → Bool) :
    ∀ ts : List (ChatMessage × ChatMessage),
      (turns_messages ts).countP p =
        ts.countP (fun t => p t.1) + ts.countP (fun t => p t.2)
  | [] => by simp [turns_messages]
  | t :: ts => by
    simp only [turns_messages, List.countP_cons, turns_messages_countP p ts]
    by_cases h1 : p t.1 <;> by_cases h2 : p t.2 <;> simp [h1, h2] <;> omega

/-- C7 counterexample: with history enabled and configured window size 0, one
appended turn (M = 1 > 0 = N) makes the derived context window the WHOLE
message list (2 messages), not at most 2N = 0 messages: the Python slice
messages[-0:] is messages[0:], the full list. -/
theorem conversation_window_zero_counterexample :
    conversation_window true 0
        [{ role := "user", content := "q1", timestamp := "t1" },
         { role := "assistant", content := "a1", timestamp := "t2" }] =
      [{ role := "user", content := "q1", timestamp := "t1" },
       { role := "assistant", content := "a1", timestamp := "t2" }] ∧
    ¬ ((conversation_window true 0
        [{ role := "user", content := "q1", timestamp := "t1" },
         { role := "assistant", content := "a1", timestamp := "t2" }]).length ≤ 2 * 0) := by
  exact ⟨rfl, by decide⟩

/-- C7 amended: with chat history enabled and configured window size N >= 1,
after M > N complete (user, assistant) turns the derived context window on a
new user turn is exactly the flattening of the most recent N turns: at most
2N messages, a suffix of the history, N user plus N assistant messages; it is
computed from the messages BEFORE the in-flight question is appended, so it
never contains the in-flight question. (For N = 0 the Python slice [-0:]
degenerates to the whole list, see the counterexample.) -/
theorem context_window_bound (wsize : Nat) (turns : List (ChatMessage × ChatMessage))
    (prompt : ChatMessage) (hN : 0 < wsize) (hM : wsize < turns.length)
    (hroles : ∀ t ∈ turns, t.1.role = "user" ∧ t.2.role = "assistant") :
    (handle_chat_turn true wsize (turns_messages turns) prompt).1 =
        turns_messages (turns.drop (turns.length - wsize)) ∧
    (handle_chat_turn true wsize (turns_messages turns) prompt).1.length ≤ 2 * wsize ∧
    (handle_chat_turn true wsize (turns_messages turns) prompt).1 <:+
        turns_messages turns ∧
    (handle_chat_turn true wsize (turns_messages turns) prompt).1.countP
        (fun m => m.role == "user") = wsize ∧
    (handle_chat_turn true wsize (turns_messages turns) prompt).1.countP
        (fun m => m.role == "assistant") = wsize ∧
    (prompt ∉ turns_messages turns →
        prompt ∉ (handle_chat_turn true wsize (turns_messages turns) prompt).1) ∧
    (handle_chat_turn true wsize (turns_messages turns) prompt).2 =
        turns_messages turns ++ [prompt] := by
  have hlen : (turns_messages turns).length = 2 * turns.length :=
    turns_messages_length turns
  have hz : ¬ (wsize * 2 = 0) := by omega
  have hwin : (handle_chat_turn true wsize (turns_messages turns) prompt).1 =
      (turns_messages turns).drop ((turns_messages turns).length - wsize * 2) := by
    simp [handle_chat_turn, conversation_window, py_slice_last, hz]
  have harith : (turns_messages turns).length - wsize * 2 =
      2 * (turns.length - wsize) := by
    rw [hlen]; omega
  have hw1 : (handle_chat_turn true wsize (turns_messages turns) prompt).1 =
      turns_messages (turns.drop (turns.length - wsize)) := by
    rw [hwin, harith, turns_messages_drop]
  have hdl : (turns.drop (turns.length - wsize)).length = wsize := by
    rw [List.length_drop]; omega
  have hsubset : ∀ t ∈ turns.drop (turns.length - wsize), t ∈ turns :=
    fun t ht => List.drop_subset _ _ ht
  refine ⟨hw1, ?_, ?_, ?_, ?_, ?_, rfl⟩
  · rw [hw1, turns_messages_length, hdl]
  · rw [hwin]
    exact List.drop_suffix _ _
  · rw [hw1, turns_messages_countP]
    have hall1 : (turns.drop (turns.length - wsize)).countP
        (fun t => t.1.role == "user") = (turns.drop (turns.length - wsize)).length := by
      rw [List.countP_eq_length]
      intro t ht
      simp [(hroles t (hsubset t ht)).1]
    have hall2 : (turns.drop (turns.length - wsize)).countP
        (fun t => t.2.role == "user") = 0 := by
      rw [List.countP_eq_zero]
      intro t ht
      simp [(hroles t (hsubset t ht)).2]
    rw [hall1, hall2, hdl]
    omega
  · rw [hw1, turns_messages_countP]
    have hall1 : (turns.drop (turns.length - wsize)).countP
        (fun t => t.1.role == "assistant") = (0 : Nat) := by
      rw [List.countP_eq_zero]
      intro t ht
      simp [(hroles t (hsubset t ht)).1]
    have hall2 : (turns.drop (turns.length - wsize)).countP
        (fun t => t.2.role == "assistant") = (turns.drop (turns.length - wsize)).length := by
      rw [List.countP_eq_length]
      intro t ht
      simp [(hroles t (hsubset t ht)).2]
    rw [hall1, hall2, hdl]
    omega
  · intro hnp hmem
    rw [hwin] at hmem
    exact hnp (List.drop_subset _ _ hmem)

/-- Witness for C7 amended: window size 1, two complete turns, a fresh
in-flight prompt. -/
theorem context_window_bound_witness :
    (handle_chat_turn true 1 (turns_messages
        [({ role := "user", content := "q1", timestamp := "t1" },
          { role := "assistant", content := "a1", timestamp := "t2" }),
         ({ role := "user", content := "q2", timestamp := "t3" },
          { role := "assistant", content := "a2", timestamp := "t4" })])
        { role := "user", content := "q3", timestamp := "t5" }).1 =
      turns_messages ([({ role := "user", content := "q1", timestamp := "t1" },
          { role := "assistant", content := "a1", timestamp := "t2" }),
         ({ role := "user", content := "q2", timestamp := "t3" },
          { role := "assistant", content := "a2", timestamp := "t4" })].drop (2 - 1)) ∧
    (handle_chat_turn true 1 (turns_messages
        [({ role := "user", content := "q1", timestamp := "t1" },
          { role := "assistant", content := "a1", timestamp := "t2" }),
         ({ role := "user", content := "q2", timestamp := "t3" },
          { role := "assistant", content := "a2", timestamp := "t4" })])
        { role := "user", content := "q3", timestamp := "t5" }).1.length ≤ 2 * 1 :=
  ⟨(context_window_bound 1
      [({ role := "user", content := "q1", timestamp := "t1" },
        { role := "assistant", content := "a1", timestamp := "t2" }),
       ({ role := "user", content := "q2", timestamp := "t3" },
        { role := "assistant", content := "a2", timestamp := "t4" })]
      { role := "user", content := "q3", timestamp := "t5" }
      (by decide) (by decide) (by decide)).1,
   (context_window_bound 1
      [({ role := "user", content := "q1", timestamp := "t1" },
        { role := "assistant", content := "a1", timestamp := "t2" }),
       ({ role := "user", content := "q2", timestamp := "t3" },
        { role := "assistant", content := "a2", timestamp := "t4" })]
      { role := "user", content := "q3", timestamp := "t5" }
      (by decide) (by decide) (by decide)).2.1⟩

/-- A key-preserving map over dict entries leaves the key list unchanged. -/
theorem keys_map_keep (d : FeedbackMap)
    (f : String × FeedbackRec → String × FeedbackRec)
    (hf : ∀ p, (f p).1 = p.1) : (d.map f).map Prod.fst = d.map Prod.fst := by
  induction d with
  | nil => rfl
  | cons p ps ih => simp [hf, ih]

/-- Looking up the key just overwritten by the in-place branch of dict
assignment yields the new value. -/
theorem lookup_map_set (d : FeedbackMap) (k : String) (v : FeedbackRec)
    (hk : k ∈ d.map Prod.fst) :
    (d.map (fun p => if p.1 = k then (p.1, v) else p)).lookup k = some v := by
  induction d with
  | nil => simp at hk
  | cons p ps ih =>
    obtain ⟨a, b⟩ := p
    by_cases h : a = k
    · simp only [List.map_cons]
      rw [if_pos h, List.lookup_cons]
      simp [h]
    · have hne : (k == a) = false := beq_eq_false_iff_ne.mpr (fun hh => h hh.symm)
      have hk2 : k ∈ ps.map Prod.fst := by
        simp only [List.map_cons, List.mem_cons] at hk
        rcases hk with h1 | h2
        · exact absurd h1.symm h
        · exact h2
      simp only [List.map_cons]
      rw [if_neg h, List.lookup_cons]
      simp only [hne]
      exact ih hk2

/-- Looking up a freshly appended key yields the appended value. -/
theorem lookup_append_fresh (d : FeedbackMap) (k : String) (v : FeedbackRec)
    (hk : k ∉ d.map Prod.fst) :
    (d ++ [(k, v)]).lookup k = some v := by
  induction d with
  | nil => simp [List.lookup]
  | cons p ps ih =>
    have h : ¬ (p.1 = k) := fun hh => hk (by simp [hh])
    have hne : (k == p.1) = false := beq_eq_false_iff_ne.mpr (fun hh => h hh.symm)
    have hk2 : k ∉ ps.map Prod.fst := fun hm => hk (by simp [hm])
    simpa [List.lookup, hne] using ih hk2

/-- Dict assignment followed by lookup of the same key yields the assigned
value. -/
theorem lookup_dict_set (d : FeedbackMap) (k : String) (v : FeedbackRec) :
    (dict_set d k v).lookup k = some v := by
  unfold dict_set
  by_cases hk : k ∈ d.map Prod.fst
  · rw [if_pos hk]
    exact lookup_map_set d k v hk
  · rw [if_neg hk]
    exact lookup_append_fresh d k v hk

/-- Updating the value stored under a key in place rewrites what lookup
returns for that key through the update function. -/
theorem lookup_map_update (d : FeedbackMap) (k : String)
    (g : FeedbackRec → FeedbackRec) (f : FeedbackRec) (h : d.lookup k = some f) :
    (d.map (fun p => if p.1 = k then (p.1, g p.2) else p)).lookup k = some (g f) := by
  induction d with
  | nil => simp [List.lookup] at h
  | cons p ps ih =>
    obtain ⟨a, b⟩ := p
    by_cases hak : a = k
    · have hkp : (k == a) = true := by simp [hak]
      rw [List.lookup_cons] at h
      simp only [hkp] at h
      have hbf : b = f := by simpa using h
      simp only [List.map_cons]
      rw [if_pos hak, List.lookup_cons]
      simp [hkp, hbf]
    · have hkp : (k == a) = false := beq_eq_false_iff_ne.mpr (fun hh => hak hh.symm)
      rw [List.lookup_cons] at h
      simp only [hkp] at h
      simp only [List.map_cons]
      rw [if_neg hak, List.lookup_cons]
      simp only [hkp]
      exact ih h

/-- A successful lookup means the key is among the dict keys. -/
theorem mem_keys_of_lookup (d : FeedbackMap) (k : String) (f : FeedbackRec)
    (h : d.lookup k = some f) : k ∈ d.map Prod.fst := by
  induction d with
  | nil => simp [List.lookup] at h
  | cons p ps ih =>
    by_cases hpk : p.1 = k
    · simp [hpk]
    · have hkp : (k == p.1) = false := beq_eq_false_iff_ne.mpr (fun hh => hpk hh.symm)
      simp only [List.lookup, hkp] at h
      simp [ih h]

/-- Dict assignment preserves key uniqueness. -/
theorem dict_set_keys_nodup (d : FeedbackMap) (k : String) (v : FeedbackRec)
    (h : (d.map Prod.fst).Nodup) : ((dict_set d k v).map Prod.fst).Nodup := by
  unfold dict_set
  by_cases hk : k ∈ d.map Prod.fst
  · rw [if_pos hk, keys_map_keep]
    · exact h
    · intro p
      by_cases hp : p.1 = k <;> simp [hp]
  · rw [if_neg hk]
    rw [List.map_append]
    apply List.Nodup.append h (by simp)
    intro a ha hb
    simp only [List.map_cons, List.map_nil, List.mem_singleton] at hb
    subst hb
    exact hk ha

/-- C9 counterexample: saving a detailed comment for turn 0 and then storing
a rating for the same turn REPLACES the whole record, so the previously saved
detailed comment is gone (detailed_feedback is none after the rating), not
retained as the claim states. -/
theorem store_feedback_drops_detail :
    (save_detailed_feedback [] 0 "too vague" "t1").lookup "msg_0" =
      some { rating := none, detailed_feedback := some "too vague",
             timestamp := "t1", message_index := 0 } ∧
    (store_feedback (save_detailed_feedback [] 0 "too vague" "t1")
        0 "positive" "t2").lookup "msg_0" =
      some { rating := some "positive", detailed_feedback := none,
             timestamp := "t2", message_index := 0 } := by
  exact ⟨rfl, rfl⟩

/-- C9 amended: the feedback store holds at most one record per turn (both
operations preserve key uniqueness); storing a rating replaces the whole
record for that turn — so the stored record after a rating has no detailed
comment, and a previously saved detailed comment is discarded rather than
retained; in the other order, saving a detailed comment for a turn that
already has a record preserves its rating and only sets the detail. -/
theorem feedback_store_semantics (d : FeedbackMap) (idx : Nat)
    (rating text now1 now2 : String) :
    ((d.map Prod.fst).Nodup →
      ((store_feedback d idx rating now1).map Prod.fst).Nodup) ∧
    ((d.map Prod.fst).Nodup →
      ((save_detailed_feedback d idx text now1).map Prod.fst).Nodup) ∧
    (store_feedback d idx rating now1).lookup ("msg_" ++ toString idx) =
      some { rating := some rating, detailed_feedback := none,
             timestamp := now1, message_index := idx } ∧
    (∀ f, d.lookup ("msg_" ++ toString idx) = some f →
      (save_detailed_feedback d idx text now2).lookup ("msg_" ++ toString idx) =
        some { f with detailed_feedback := some text }) := by
  refine ⟨fun h => dict_set_keys_nodup d _ _ h, fun h => ?_, lookup_dict_set d _ _, ?_⟩
  · unfold save_detailed_feedback
    by_cases hk : ("msg_" ++ toString idx) ∈ d.map Prod.fst
    · rw [if_pos hk, keys_map_keep]
      · exact h
      · intro p
        by_cases hp : p.1 = "msg_" ++ toString idx <;> simp [hp]
    · rw [if_neg hk]
      rw [List.map_append]
      apply List.Nodup.append h (by simp)
      intro a ha hb
      simp only [List.map_cons, List.map_nil, List.mem_singleton] at hb
      subst hb
      exact hk ha
  · intro f hf
    unfold save_detailed_feedback
    rw [if_pos (mem_keys_of_lookup d _ f hf)]
    exact lookup_map_update d _
      (fun r => { r with detailed_feedback := some text }) f hf

/-- Witness for C9 amended: key uniqueness at a concrete store, and saving a
detail after a rating keeps the rating. -/
theorem feedback_store_semantics_witness :
    ((store_feedback [] 0 "negative" "t1").map Prod.fst).Nodup ∧
    (save_detailed_feedback (store_feedback [] 0 "negative" "t1")
        0 "more detail" "t2").lookup ("msg_" ++ toString 0) =
      some { rating := some "negative", detailed_feedback := some "more detail",
             timestamp := "t1", message_index := 0 } :=
  ⟨(feedback_store_semantics [] 0 "negative" "x" "t1" "t2").1 (by decide),
   (feedback_store_semantics (store_feedback [] 0 "negative" "t1") 0 "x"
      "more detail" "t1" "t2").2.2.2
     { rating := some "negative", detailed_feedback := none,
       timestamp := "t1", message_index := 0 } (by decide)⟩

/-- Counting below the ceiling division characterizes the chunk starts. -/
theorem lt_ceil_div_iff (s n k : Nat) (hs : 0 < s) :
    k < (n + s - 1) / s ↔ k * s < n := by
  rw [Nat.lt_iff_add_one_le, Nat.le_div_iff_mul_le hs, Nat.add_mul, Nat.one_mul]
  generalize k * s = t
  omega

/-- The number of chunks is the ceiling of text length over the stride. -/
theorem split_text_length (c o : Nat) (text : List Char) :
    (split_text c o text).length = (text.length + (c - o) - 1) / (c - o) := by
  simp [split_text, chunk_starts]

/-- The chunk at list index k is the chunk starting at position
k * (chunk_size - chunk_overlap). -/
theorem split_text_get (c o : Nat) (text : List Char) (k : Nat)
    (hk : k < (split_text c o text).length) :
    (split_text c o text).get ⟨k, hk⟩ = nth_chunk c o text k := by
  simp [split_text, chunk_starts, nth_chunk, List.get_eq_getElem,
    List.getElem_map, List.getElem_range]

/-- C1: over the spec-modelled splitter, for 0 <= chunk_overlap <
chunk_size every chunk is non-empty and at most chunk_size characters long;
the chunk at index k starts at k * (chunk_size - chunk_overlap); and for
consecutive chunks the shared region — the last chunk_size - (chunk_size -
chunk_overlap) characters of the earlier chunk, which form a contiguous
initial segment of the later chunk — has length at most chunk_overlap,
exactly chunk_overlap whenever the earlier chunk does not reach the document
boundary, and is non-empty whenever chunk_overlap is positive. -/
theorem split_text_chunk_invariant (chunk_size chunk_overlap : Nat)
    (text : List Char) (hco : chunk_overlap < chunk_size) :
    (∀ chunk ∈ split_text chunk_size chunk_overlap text,
        0 < chunk.length ∧ chunk.length ≤ chunk_size) ∧
    (∀ k (hk : k < (split_text chunk_size chunk_overlap text).length),
        (split_text chunk_size chunk_overlap text).get ⟨k, hk⟩ =
          nth_chunk chunk_size chunk_overlap text k) ∧
    (∀ k, k + 1 < (split_text chunk_size chunk_overlap text).length →
        ((nth_chunk chunk_size chunk_overlap text k).drop
            (chunk_size - chunk_overlap)).length ≤ chunk_overlap ∧
        ((nth_chunk chunk_size chunk_overlap text k).drop
            (chunk_size - chunk_overlap)) <+:
          nth_chunk chunk_size chunk_overlap text (k + 1) ∧
        (k * (chunk_size - chunk_overlap) + chunk_size ≤ text.length →
          ((nth_chunk chunk_size chunk_overlap text k).drop
              (chunk_size - chunk_overlap)).length = chunk_overlap) ∧
        (0 < chunk_overlap →
          0 < ((nth_chunk chunk_size chunk_overlap text k).drop
              (chunk_size - chunk_overlap)).length)) := by
  have hs : 0 < chunk_size - chunk_overlap := by omega
  refine ⟨?_, fun k hk => split_text_get _ _ _ k hk, ?_⟩
  · intro chunk hchunk
    rw [split_text, List.mem_map] at hchunk
    obtain ⟨i, hi, rfl⟩ := hchunk
    rw [chunk_starts, List.mem_map] at hi
    obtain ⟨k, hk, rfl⟩ := hi
    have hkn : k * (chunk_size - chunk_overlap) < text.length :=
      (lt_ceil_div_iff _ _ _ hs).mp (List.mem_range.mp hk)
    simp only [chunk_at, List.length_take, List.length_drop]
    omega
  · intro k hk1
    rw [split_text_length] at hk1
    have hk1n : (k + 1) * (chunk_size - chunk_overlap) < text.length :=
      (lt_ceil_div_iff _ _ _ hs).mp hk1
    have hAB : (nth_chunk chunk_size chunk_overlap text k).drop
        (chunk_size - chunk_overlap) =
        (text.drop ((k + 1) * (chunk_size - chunk_overlap))).take chunk_overlap := by
      rw [nth_chunk, chunk_at, List.drop_take, List.drop_drop]
      congr 1
      · omega
      · congr 1
        ring
    refine ⟨?_, ?_, ?_, ?_⟩
    · rw [hAB]
      simp only [List.length_take, List.length_drop]
      omega
    · rw [hAB]
      have hBo : (text.drop ((k + 1) * (chunk_size - chunk_overlap))).take
          chunk_overlap =
          (nth_chunk chunk_size chunk_overlap text (k + 1)).take chunk_overlap := by
        rw [nth_chunk, chunk_at, List.take_take]
        congr 1
        omega
      rw [hBo]
      exact List.take_prefix _ _
    · intro hfull
      rw [hAB]
      simp only [List.length_take, List.length_drop]
      have h1 : (k + 1) * (chunk_size - chunk_overlap) =
          k * (chunk_size - chunk_overlap) + (chunk_size - chunk_overlap) := by ring
      omega
    · intro hpos
      rw [hAB]
      simp only [List.length_take, List.length_drop]
      omega

/-- Witness for C1 at chunk_size 5, chunk_overlap 2 on a 8-character text. -/
theorem split_text_chunk_invariant_witness :
    (∀ chunk ∈ split_text 5 2 ("abcdefgh".toList),
        0 < chunk.length ∧ chunk.length ≤ 5) ∧
    (∀ k (hk : k < (split_text 5 2 ("abcdefgh".toList)).length),
        (split_text 5 2 ("abcdefgh".toList)).get ⟨k, hk⟩ =
          nth_chunk 5 2 ("abcdefgh".toList) k) ∧
    (∀ k, k + 1 < (split_text 5 2 ("abcdefgh".toList)).length →
        ((nth_chunk 5 2 ("abcdefgh".toList) k).drop (5 - 2)).length ≤ 2 ∧
        ((nth_chunk 5 2 ("abcdefgh".toList) k).drop (5 - 2)) <+:
          nth_chunk 5 2 ("abcdefgh".toList) (k + 1) ∧
        (k * (5 - 2) + 5 ≤ ("abcdefgh".toList).length →
          ((nth_chunk 5 2 ("abcdefgh".toList) k).drop (5 - 2)).length = 2) ∧
        (0 < 2 →
          0 < ((nth_chunk 5 2 ("abcdefgh".toList) k).drop (5 - 2)).length)) :=
  split_text_chunk_invariant 5 2 ("abcdefgh".toList) (by decide)

/-- A string starting with a non-empty string is non-empty. -/
theorem append_ne_empty_left (a b : String) (ha : a ≠ "") : a ++ b ≠ "" := by
  intro h
  apply ha
  have hd := congrArg String.data h
  rw [String.data_append] at hd
  have hnil : a.data = [] := (List.append_eq_nil.mp hd).1
  cases a with
  | mk d =>
    simp only [String.data] at hnil
    rw [hnil]

/-- After setup, the current namespace is the temp_session namespace for
temporary mode and "persistent" otherwise, regardless of backend success. -/
theorem setup_current_namespace (s : RAGState) (mode fid : String)
    (pok cok : Bool) :
    (setup_vectorstore s mode fid pok cok).1.current_namespace =
      (if mode = "temporary"
       then some ("temp_session_" ++
         (match s.session_id with
          | none => fid
          | some id => if id = "" then fid else id))
       else some "persistent") := by
  unfold setup_vectorstore
  by_cases hm : mode = "temporary" <;> cases pok <;> cases cok <;> simp [hm]

/-- setup always establishes the namespace invariant. -/
theorem setup_inv (s : RAGState) (mode fid : String) (pok cok : Bool) :
    NamespaceInv (setup_vectorstore s mode fid pok cok).1 := by
  intro _
  rw [setup_current_namespace]
  by_cases hm : mode = "temporary"
  · rw [if_pos hm]
    exact ⟨_, rfl, append_ne_empty_left _ _ (by decide)⟩
  · rw [if_neg hm]
    exact ⟨"persistent", rfl, by decide⟩

/-- clear_database preserves the namespace invariant. -/
theorem clear_database_inv (s : RAGState) (mode : Option String) (df : Bool)
    (h : NamespaceInv s) : NamespaceInv ((clear_database s mode df).1) := by
  unfold clear_database
  split_ifs with h1 h2 h3 <;>
    first
      | exact h
      | (intro hv; simp at hv)

/-- add_documents_to_vectorstore preserves the namespace invariant. -/
theorem add_documents_inv (s : RAGState) (infos : List SourceRecord) (ok : Bool)
    (h : NamespaceInv s) : NamespaceInv (add_documents_to_vectorstore s infos ok) := by
  unfold add_documents_to_vectorstore
  split_ifs <;> exact h

/-- The second component of clear_database is always the selected branch. -/
theorem clear_database_snd (s : RAGState) (mode : Option String) (df : Bool) :
    (clear_database s mode df).2 = clear_branch s mode := by
  unfold clear_database
  split_ifs <;> rfl

/-- Under the namespace invariant the fallback delete-everything branch is
never selected. -/
theorem clear_branch_not_fallback (s : RAGState) (mode : Option String)
    (h : NamespaceInv s) : clear_branch s mode ≠ ClearBranch.fallback_all := by
  unfold clear_branch
  by_cases hv : s.vectorstore.isSome
  · rw [if_pos hv]
    obtain ⟨ns, hns, hne⟩ := h hv
    by_cases h1 : mode = some "temporary"
    · simp [h1]
    · by_cases h2 : mode = some "permanent"
      · simp [h1, h2]
      · rw [if_neg h1, if_neg h2, hns]
        show (if ns = "" then ClearBranch.fallback_all else ClearBranch.current_ns) ≠ _
        rw [if_neg hne]
        decide
  · rw [if_neg hv]
    decide

/-- C10: in every reachable state of a RAGSystem instance, a bound vector
store implies a bound, non-empty current namespace (setup assigns the
namespace before binding the store and clear resets both together);
consequently the fallback branch of clear_database that deletes all data
across every namespace of the index is never selected. -/
theorem vectorstore_namespace_invariant (s : RAGState) (h : Reachable s) :
    (s.vectorstore.isSome → ∃ ns, s.current_namespace = some ns ∧ ns ≠ "") ∧
    (∀ mode df, (clear_database s mode df).2 ≠ ClearBranch.fallback_all) := by
  have inv : NamespaceInv s := by
    induction h with
    | init => intro hv; simp [initState] at hv
    | setup s mode fid pok cok _ _ => exact setup_inv s mode fid pok cok
    | clear s mode df _ ih => exact clear_database_inv s mode df ih
    | add s infos ok _ ih => exact add_documents_inv s infos ok ih
  refine ⟨inv, fun mode df => ?_⟩
  rw [clear_database_snd]
  exact clear_branch_not_fallback s mode inv

/-- Witness for C10 at the concrete reachable state after a successful
permanent setup. -/
theorem vectorstore_namespace_invariant_witness :
    ((setup_vectorstore initState "permanent" "ab12cd34" true true).1.vectorstore.isSome →
      ∃ ns, (setup_vectorstore initState "permanent" "ab12cd34"
          true true).1.current_namespace = some ns ∧ ns ≠ "") ∧
    (∀ mode df, (clear_database (setup_vectorstore initState "permanent" "ab12cd34"
        true true).1 mode df).2 ≠ ClearBranch.fallback_all) :=
  vectorstore_namespace_invariant
    (setup_vectorstore initState "permanent" "ab12cd34" true true).1
    (Reachable.setup initState "permanent" "ab12cd34" true true Reachable.init)

end RAGAssistant
